import Mathlib

/-!
# rocketburgers: `public/site/menu.js`

A shallow embedding of the menu renderer's pure helpers (`slug`, the layout
decision) and of the infinite carousel controller created by
`initInfiniteCarousel`, followed by theorems about them.

Modelling conventions.

* The controller's closure variables (`step`, `isAnimating`, `startX`, `curX`,
  `dragging`) together with the part of the track element the controller
  mutates (child order, inline `transform`, inline `transition`, registered
  `transitionend` listeners) form one record, `Carousel`.
* Every handler of the source is a function `Carousel α → Carousel α`; an
  `Event` is what the browser delivers, and `handle` dispatches it to the
  handlers exactly as the `addEventListener` calls of the source wire them.
* Pixel quantities are integers.  Rounding of JavaScript doubles and `NaN`
  are outside the model.
* The rendering layer is the environment: it decides when `transitionend` is
  delivered and what `getBoundingClientRect().width` and the computed `gap`
  are when `measure` runs; both are carried by the event.
-/

namespace RocketBurgers

/-! ## Track children -/

/-- The statement `if (track.firstElementChild) track.appendChild(track.firstElementChild)`:
the first child, when there is one, becomes the last. -/
def appendFirstChild {α : Type} : List α → List α
  | [] => []
  | c :: cs => cs ++ [c]

/-- The statement `if (track.lastElementChild)
track.insertBefore(track.lastElementChild, track.firstElementChild)`:
the last child, when there is one, becomes the first. -/
def insertLastBeforeFirst {α : Type} (cs : List α) : List α :=
  match cs.getLast? with
  | none => cs
  | some c => c :: cs.dropLast

/-! ## Controller state -/

/-- Inline `track.style.transition`: never assigned, `"none"`, or
`"transform .35s ease"`. -/
inductive Transition where
  | unset
  | suspended
  | eased
  deriving DecidableEq, Repr

/-- The three callbacks the source registers for `transitionend` on the track,
all with `{ once: true }`. -/
inductive Listener where
  /-- Callback `onEnd` of `goNext` (lines 101-109). -/
  | goNextOnEnd
  /-- The arrow function of `goPrev` (lines 125-127). -/
  | goPrevOnEnd
  /-- Callback `onEnd` of `onUp` (lines 167-174). -/
  | onUpOnEnd
  deriving DecidableEq, Repr

/-- State of one carousel: the closure variables of `initInfiniteCarousel` and
the mutable part of its track element. -/
structure Carousel (α : Type) where
  /-- Children of the track (`track.children`), in document order. -/
  children : List α
  /-- Variable `step`. -/
  step : Int
  /-- Variable `isAnimating`. -/
  isAnimating : Bool
  /-- The `px` of the last `setX(px)`, i.e. of `track.style.transform`. -/
  offset : Int
  /-- Inline style `track.style.transition`. -/
  transition : Transition
  /-- Variable `startX`. -/
  startX : Int
  /-- Variable `curX`. -/
  curX : Int
  /-- Variable `dragging`. -/
  dragging : Bool
  /-- The `transitionend` listeners registered on the track, oldest first. -/
  listeners : List Listener
  deriving DecidableEq, Repr

/-- The state right after `initInfiniteCarousel` returns: `step = 0`,
`isAnimating = false`, `startX = curX = 0`, `dragging = false`, no inline
style and no listener on the track. -/
def initInfiniteCarousel {α : Type} (items : List α) : Carousel α :=
  { children := items, step := 0, isAnimating := false, offset := 0,
    transition := Transition.unset, startX := 0, curX := 0, dragging := false,
    listeners := [] }

/-- The constant `TH`. -/
def TH : Int := 30

/-- Function `computeStep`: `0` without a first child, otherwise the first child's
rendered width plus the computed gap (both supplied by the rendering layer). -/
def computeStep {α : Type} (s : Carousel α) (width gap : Int) : Int :=
  match s.children with
  | [] => 0
  | _ :: _ => width + gap

/-- Function `setX(px)`. -/
def setX {α : Type} (px : Int) (s : Carousel α) : Carousel α :=
  { s with offset := px }

/-- Function `measure`. -/
def measure {α : Type} (width gap : Int) (s : Carousel α) : Carousel α :=
  let s := { s with step := computeStep s width gap }
  let s := { s with transition := Transition.suspended }
  let s := setX 0 s
  { s with transition := Transition.eased }

/-- Function `goNext`. -/
def goNext {α : Type} (s : Carousel α) : Carousel α :=
  if s.isAnimating = true ∨ s.step = 0 then s
  else
    let s := { s with isAnimating := true }
    let s := setX (-s.step) s
    { s with listeners := s.listeners ++ [Listener.goNextOnEnd] }

/-- Function `goPrev`. -/
def goPrev {α : Type} (s : Carousel α) : Carousel α :=
  if s.isAnimating = true ∨ s.step = 0 then s
  else
    let s := { s with isAnimating := true }
    let s := { s with transition := Transition.suspended }
    let s := { s with children := insertLastBeforeFirst s.children }
    let s := setX (-s.step) s
    let s := { s with transition := Transition.eased }
    let s := setX 0 s
    { s with listeners := s.listeners ++ [Listener.goPrevOnEnd] }

/-- The `keydown` listener of the carousel element: two independent `if`s. -/
def onKeydown {α : Type} (key : String) (s : Carousel α) : Carousel α :=
  let s := if key = "ArrowRight" then goNext s else s
  if key = "ArrowLeft" then goPrev s else s

/-- Function `onDown`, with `x` the `clientX` of the touch or mouse event. -/
def onDown {α : Type} (x : Int) (s : Carousel α) : Carousel α :=
  if s.isAnimating = true then s
  else
    { s with dragging := true, startX := x, curX := x,
             transition := Transition.suspended }

/-- Function `onMove`, with `x` the `clientX` of the touch or mouse event. -/
def onMove {α : Type} (x : Int) (s : Carousel α) : Carousel α :=
  if s.dragging = false then s
  else
    let s := { s with curX := x }
    setX (s.curX - s.startX) s

/-- Function `onUp`. -/
def onUp {α : Type} (s : Carousel α) : Carousel α :=
  if s.dragging = false then s
  else
    let s := { s with dragging := false }
    let dx := s.curX - s.startX
    let s := { s with transition := Transition.eased }
    if dx ≤ -TH then
      let s := setX (-s.step) s
      { s with listeners := s.listeners ++ [Listener.onUpOnEnd] }
    else if dx ≥ TH then
      let s := { s with transition := Transition.suspended }
      let s := { s with children := insertLastBeforeFirst s.children }
      let s := setX (-s.step) s
      let s := { s with transition := Transition.eased }
      setX 0 s
    else
      setX 0 s

/-- Body of a registered `transitionend` callback. -/
def Listener.call {α : Type} (l : Listener) (s : Carousel α) : Carousel α :=
  match l with
  | Listener.goNextOnEnd =>
    let s := { s with transition := Transition.suspended }
    let s := { s with children := appendFirstChild s.children }
    let s := setX 0 s
    let s := { s with transition := Transition.eased }
    { s with isAnimating := false }
  | Listener.goPrevOnEnd => { s with isAnimating := false }
  | Listener.onUpOnEnd =>
    let s := { s with transition := Transition.suspended }
    let s := { s with children := appendFirstChild s.children }
    let s := setX 0 s
    { s with transition := Transition.eased }

/-- Delivery of one `transitionend` event to the track: every registered
listener runs, in registration order; each was registered `once`, so none
stays registered. -/
def transitionend {α : Type} (s : Carousel α) : Carousel α :=
  s.listeners.foldl (fun st l => l.call st) { s with listeners := [] }

/-- What the browser can deliver to a carousel. -/
inductive Event where
  /-- Event `click` on the right arrow. -/
  | clickRight
  /-- Event `click` on the left arrow. -/
  | clickLeft
  /-- Event `keydown` on the focused carousel, with `e.key`. -/
  | keydown (key : String)
  /-- Event `touchstart` or `mousedown` on the viewport, with the pointer's `clientX`. -/
  | down (x : Int)
  /-- Event `touchmove` or `mousemove`, with the pointer's `clientX`. -/
  | move (x : Int)
  /-- Event `touchend` or `mouseup`. -/
  | up
  /-- Event `transitionend` on the track. -/
  | transitionend
  /-- A `ResizeObserver` notification or the window's `load`, with the first
  child's rendered width and the track's gap at that moment. -/
  | measure (width gap : Int)
  deriving DecidableEq, Repr

/-- The wiring of lines 133-140 and 189-198. -/
def handle {α : Type} (s : Carousel α) : Event → Carousel α
  | Event.clickRight => goNext s
  | Event.clickLeft => goPrev s
  | Event.keydown key => onKeydown key s
  | Event.down x => onDown x s
  | Event.move x => onMove x s
  | Event.up => onUp s
  | Event.transitionend => transitionend s
  | Event.measure width gap => measure width gap s

/-- The state after a finite sequence of events. -/
def run {α : Type} (s : Carousel α) (events : List Event) : Carousel α :=
  events.foldl handle s

/-- The controller is at rest: not animating, not dragging, offset `0`, and no
`transitionend` callback registered on the track. The last condition is not
implied by the first three: after a forward swipe `onUp` leaves its callback
registered with `isAnimating` false, and a `measure` or a tap then puts the
offset back to `0` (see `staleSwipe`). -/
def Idle {α : Type} (s : Carousel α) : Prop :=
  s.isAnimating = false ∧ s.dragging = false ∧ s.offset = 0 ∧ s.listeners = []

/-- A measured three-item carousel at rest: the state after
`initInfiniteCarousel` and one `measure` with item width 200 and gap 16. -/
def threeItems : Carousel Nat :=
  measure 200 16 (initInfiniteCarousel [1, 2, 3])

/-- A measured one-item carousel at rest, item width 200 and gap 16. -/
def oneItem : Carousel Nat :=
  measure 200 16 (initInfiniteCarousel [7])

/-- The measured three-item carousel after a forward swipe (`dx = -31`) whose
`transitionend` has not arrived, followed by a `measure` (a resize or the
window's `load`): `isAnimating` and `dragging` are false and the offset is `0`,
while the callback of the swipe is still registered. -/
def staleSwipe : Carousel Nat :=
  run threeItems [Event.down 100, Event.move 69, Event.up, Event.measure 200 16]

/-- A whole drag gesture: pointer down at `startX`, one move to `currentX`,
pointer up. -/
def drag {α : Type} (startX currentX : Int) (s : Carousel α) : Carousel α :=
  onUp (onMove currentX (onDown startX s))

/-! ## Anchor ids -/

/-- The character class `[a-z0-9]` of the third `replace` of `slug`. -/
def isLowerAlnum (c : Char) : Bool :=
  (97 ≤ c.toNat && c.toNat ≤ 122) || (48 ≤ c.toNat && c.toNat ≤ 57)

/-- Lowercase form of one character under `String.prototype.toLowerCase`:
`A`-`Z` map to `a`-`z`; the Kelvin sign U+212A maps to `k` and U+0130 to `i`
followed by U+0307, the only characters outside ASCII whose lowercase form
contains an ASCII letter.  Every other character is kept as it is: its
lowercase form lies outside ASCII as well, and `slug` and the layout decision
treat the two alike. -/
def toLowerCaseChar (c : Char) : List Char :=
  if 65 ≤ c.toNat ∧ c.toNat ≤ 90 then [Char.ofNat (c.toNat + 32)]
  else if c.toNat = 0x212A then [Char.ofNat 107]
  else if c.toNat = 0x0130 then [Char.ofNat 105, Char.ofNat 0x0307]
  else [c]

/-- The call `.toLowerCase()`, on the characters of a string. -/
def toLowerCaseChars (s : List Char) : List Char :=
  s.flatMap toLowerCaseChar

/-- The call `.toLowerCase()`. -/
def toLowerCase (s : String) : String :=
  String.mk (toLowerCaseChars s.data)

/-- The call `.replace(/&/g, "and")`. -/
def replaceAmpersands (s : List Char) : List Char :=
  s.flatMap (fun c => if c = '&' then ['a', 'n', 'd'] else [c])

/-- The scan of `.replace(/[^a-z0-9]+/g, "-")` from left to right; `inRun`
tells that the characters just before belong to a match already replaced. A
match is greedy, so it ends only at a character of `[a-z0-9]` or at the end. -/
def replaceNonAlnumRunsFrom : Bool → List Char → List Char
  | _, [] => []
  | inRun, c :: cs =>
    if isLowerAlnum c then c :: replaceNonAlnumRunsFrom false cs
    else if inRun then replaceNonAlnumRunsFrom true cs
    else '-' :: replaceNonAlnumRunsFrom true cs

/-- The call `.replace(/[^a-z0-9]+/g, "-")`. -/
def replaceNonAlnumRuns (s : List Char) : List Char :=
  replaceNonAlnumRunsFrom false s

/-- The alternative `-+$` of the last `replace` of `slug`, scanned from left to
right: a `-` starts a match exactly when only `-` follow up to the end, and the
match then takes all of them. -/
def removeTrailingDashes : List Char → List Char
  | [] => []
  | c :: cs =>
    if c = '-' ∧ cs.all (fun d => d = '-') = true then []
    else c :: removeTrailingDashes cs

/-- The call `.replace(/^-+|-+$/g, "")`: the alternative `^-+` can match at
position 0 only and takes every leading `-`; the scan goes on with `-+$`. -/
def removeEdgeDashes (s : List Char) : List Char :=
  removeTrailingDashes (s.dropWhile (fun c => c = '-'))

/-- The pipeline of `slug` on the characters of `String(s)`. -/
def slugChars (s : List Char) : List Char :=
  removeEdgeDashes (replaceNonAlnumRuns (replaceAmpersands (toLowerCaseChars s)))

/-- Function `slug`. -/
def slug (s : String) : String :=
  String.mk (slugChars s.data)

/-- The template literal of line 261 (and the `href` of line 214 without its
`#`): the anchor id of a section with the given title. -/
def anchorId (title : String) : String :=
  "sec-" ++ slug title

/-- The slug as the specification words it: lowercase the title, put `and`
for every `&`, put one `-` for every maximal run of characters outside
`a`-`z` and `0`-`9`, and drop the `-` at both ends. -/
def slugSpec (title : String) : String :=
  let lowered := toLowerCaseChars title.data
  let anded := lowered.flatMap (fun c => if c = '&' then "and".data else [c])
  let runs := anded.splitBy (fun a b => isLowerAlnum a == isLowerAlnum b)
  let dashed := runs.flatMap (fun r => if r.all isLowerAlnum then r else ['-'])
  String.mk ((dashed.dropWhile (fun c => c == '-')).rdropWhile (fun c => c == '-'))

/-! ## Layout decision -/

/-- An item of the menu document. -/
structure Item where
  name : String
  desc : Option String
  price : Option Int
  img : Option String
  alt : Option String
  deriving DecidableEq, Repr

/-- A section of the menu document; `none` is a field that is missing. -/
structure Section where
  title : String
  type : Option String
  items : Option (List Item)
  deriving DecidableEq, Repr

/-- The constant `isCarousel` of the rendering loop (lines 254-257). -/
def isCarousel (sec : Section) : Bool :=
  let explicit := toLowerCase (sec.type.getD "")
  explicit == "carousel" ||
    (explicit != "grid" && decide ((sec.items.map List.length).getD 0 > 4))

/-- An item with a name only. -/
def plainItem (name : String) : Item :=
  { name := name, desc := none, price := none, img := none, alt := none }

/-- A section with the given type and `n` items. -/
def sectionOf (type : Option String) (n : Nat) : Section :=
  { title := "Burgers", type := type, items := some (List.replicate n (plainItem "Burger")) }

/-! ## Item cards -/

/-- The steps of `Number.prototype.toFixed` of ECMAScript for two fraction
digits, on a number of integral value `x`. The sign is split off; a value of
`10^21` or more is handed to `Number::toString`, which is the parameter
`numberToString`; otherwise `n = 100 * x` is the integer with `n / 10^2`
nearest to the value, its decimal digits are padded with `0` to three digits
at least, and a `.` is put before the last two. -/
def toFixed2 (numberToString : Nat → String) (x : Int) : String :=
  let s := if x < 0 then "-" else ""
  let x := x.natAbs
  if 10 ^ 21 ≤ x then s ++ numberToString x
  else
    let n := x * 100
    let m := if n = 0 then ['0'] else Nat.toDigits 10 n
    let m := if m.length ≤ 2 then List.replicate (2 + 1 - m.length) '0' ++ m else m
    let k := m.length
    s ++ String.mk (m.take (k - 2)) ++ "." ++ String.mk (m.drop (k - 2))

/-- Function `fmtPrice`, on a price that is missing (`undefined` or `null`) or
a number of integral value; `numberToString` is ECMAScript's
`Number::toString`, which `toFixed` uses from `10^21` on. -/
def fmtPrice (numberToString : Nat → String) (n : Option Int) : String :=
  match n with
  | none => ""
  | some n => "$" ++ toFixed2 numberToString n

/-- The code points that `String.prototype.trim` strips: `WhiteSpace` (tab,
vertical tab, form feed, U+FEFF and the space separators) and
`LineTerminator` of ECMAScript. -/
def isTrimmedChar (c : Char) : Bool :=
  c.toNat == 0x0009 || c.toNat == 0x000A || c.toNat == 0x000B || c.toNat == 0x000C ||
  c.toNat == 0x000D || c.toNat == 0x0020 || c.toNat == 0x00A0 || c.toNat == 0x1680 ||
  (0x2000 ≤ c.toNat && c.toNat ≤ 0x200A) || c.toNat == 0x2028 || c.toNat == 0x2029 ||
  c.toNat == 0x202F || c.toNat == 0x205F || c.toNat == 0x3000 || c.toNat == 0xFEFF

/-- The call `.trim()`. -/
def trim (s : String) : String :=
  String.mk ((s.data.dropWhile isTrimmedChar).rdropWhile isTrimmedChar)

/-- The fallback image of `cardHTML`. -/
def fallbackImage : String := "https://picsum.photos/seed/rocket/600/400"

/-- The constant `src` of `cardHTML` (lines 19-22): `item.img` when it is a
non-empty string whose trimmed form is non-empty, the fallback otherwise. -/
def cardSrc (item : Item) : String :=
  match item.img with
  | none => fallbackImage
  | some img => if img ≠ "" ∧ trim img ≠ "" then img else fallbackImage

/-- The image of an item is absent, empty or made of whitespace only. -/
def imgBlank (item : Item) : Prop :=
  item.img = none ∨ ∃ img, item.img = some img ∧ img.data.all isTrimmedChar = true

/-- An item with the given image and nothing else but a name. -/
def itemWithImg (img : Option String) : Item :=
  { name := "Burger", desc := none, price := none, img := img, alt := none }

/-! ## Completed steps -/

/-- The given number of completed `next` steps: each is a `next` request
followed by the delivery of `transitionend`. -/
def completedNextSteps {α : Type} : Nat → Carousel α → Carousel α
  | 0, s => s
  | k + 1, s => completedNextSteps k (transitionend (goNext s))

/-- The given number of completed `prev` steps: each is a `prev` request
followed by the delivery of `transitionend`. -/
def completedPrevSteps {α : Type} : Nat → Carousel α → Carousel α
  | 0, s => s
  | k + 1, s => completedPrevSteps k (transitionend (goPrev s))

/-- The three-item carousel with a drag tracked and a `next` in flight:
pointer down at 100, then a press of the right arrow key. -/
def draggingAndAnimating : Carousel Nat :=
  run threeItems [Event.down 100, Event.keydown "ArrowRight"]

/-! ## Lemmas on the reorderings -/

theorem insertLastBeforeFirst_concat {α : Type} (cs : List α) (c : α) :
    insertLastBeforeFirst (cs ++ [c]) = c :: cs := by
  simp [insertLastBeforeFirst]

theorem insertLastBeforeFirst_appendFirstChild {α : Type} (cs : List α) :
    insertLastBeforeFirst (appendFirstChild cs) = cs := by
  cases cs with
  | nil => rfl
  | cons c cs => exact insertLastBeforeFirst_concat cs c

theorem appendFirstChild_insertLastBeforeFirst {α : Type} (cs : List α) :
    appendFirstChild (insertLastBeforeFirst cs) = cs := by
  unfold insertLastBeforeFirst
  cases h : cs.getLast? with
  | none => simp at h; subst h; rfl
  | some c =>
    show cs.dropLast ++ [c] = cs
    exact List.dropLast_append_getLast? c (by simp [h])

/-! ## Properties of the child order kept by every handler -/

theorem Listener.call_children {α : Type} (P : List α → Prop)
    (hA : ∀ cs, P cs → P (appendFirstChild cs)) (l : Listener) (s : Carousel α)
    (h : P s.children) : P (l.call s).children := by
  cases l
  · exact hA _ h
  · exact h
  · exact hA _ h

theorem transitionend_children {α : Type} (P : List α → Prop)
    (hA : ∀ cs, P cs → P (appendFirstChild cs)) (s : Carousel α)
    (h : P s.children) : P (transitionend s).children := by
  unfold transitionend
  have key : ∀ (ls : List Listener) (st : Carousel α), P st.children →
      P (ls.foldl (fun st l => l.call st) st).children := by
    intro ls
    induction ls with
    | nil => intro st hst; exact hst
    | cons l ls ih => intro st hst; exact ih _ (Listener.call_children P hA l st hst)
  exact key _ _ h

theorem goNext_children {α : Type} (s : Carousel α) : (goNext s).children = s.children := by
  unfold goNext
  split <;> rfl

theorem goPrev_children {α : Type} (P : List α → Prop)
    (hI : ∀ cs, P cs → P (insertLastBeforeFirst cs)) (s : Carousel α)
    (h : P s.children) : P (goPrev s).children := by
  unfold goPrev
  split
  · exact h
  · exact hI _ h

theorem onUp_children {α : Type} (P : List α → Prop)
    (hI : ∀ cs, P cs → P (insertLastBeforeFirst cs)) (s : Carousel α)
    (h : P s.children) : P (onUp s).children := by
  unfold onUp
  split
  · exact h
  · dsimp only
    split
    · exact h
    · split
      · exact hI _ h
      · exact h

theorem handle_children {α : Type} (P : List α → Prop)
    (hA : ∀ cs, P cs → P (appendFirstChild cs))
    (hI : ∀ cs, P cs → P (insertLastBeforeFirst cs)) (s : Carousel α) (e : Event)
    (h : P s.children) : P (handle s e).children := by
  cases e with
  | clickRight => show P (goNext s).children; rw [goNext_children]; exact h
  | clickLeft => exact goPrev_children P hI s h
  | keydown key =>
    show P (onKeydown key s).children
    unfold onKeydown
    dsimp only
    have h1 : P (if key = "ArrowRight" then goNext s else s).children := by
      split
      · rw [goNext_children]; exact h
      · exact h
    split
    · exact goPrev_children P hI _ h1
    · exact h1
  | down x =>
    show P (onDown x s).children
    unfold onDown
    split <;> exact h
  | move x =>
    show P (onMove x s).children
    unfold onMove
    split <;> exact h
  | up => exact onUp_children P hI s h
  | transitionend => exact transitionend_children P hA s h
  | measure width gap => exact h

/-- Every property of the child order that the two reorderings keep is kept
by every finite sequence of events. -/
theorem run_children {α : Type} (P : List α → Prop)
    (hA : ∀ cs, P cs → P (appendFirstChild cs))
    (hI : ∀ cs, P cs → P (insertLastBeforeFirst cs)) (events : List Event) :
    ∀ s : Carousel α, P s.children → P (run s events).children := by
  induction events with
  | nil => intro s h; exact h
  | cons e es ih => intro s h; exact ih _ (handle_children P hA hI s e h)

theorem appendFirstChild_perm {α : Type} (cs : List α) :
    (appendFirstChild cs).Perm cs := by
  cases cs with
  | nil => exact List.Perm.refl _
  | cons c cs => exact (List.perm_append_singleton c cs)

theorem insertLastBeforeFirst_perm {α : Type} (cs : List α) :
    (insertLastBeforeFirst cs).Perm cs := by
  have h := appendFirstChild_perm (insertLastBeforeFirst cs)
  rw [appendFirstChild_insertLastBeforeFirst] at h
  exact h.symm

/-! ## Lemmas on `slug` -/

theorem splitByLoop_append {r : Char → Char → Bool} (l : List Char) (a : Char)
    (g : List Char) (gs : List (List Char)) :
    List.splitBy.loop r l a g gs = gs.reverse ++ List.splitBy.loop r l a g [] := by
  induction l generalizing a g gs with
  | nil => simp [List.splitBy.loop]
  | cons b l ih =>
    simp only [List.splitBy.loop]
    split
    · exact ih _ _ _
    · rw [ih, ih b [] [_]]
      simp

theorem all_isLowerAlnum_run (a : Char) (g : List Char)
    (hg : ∀ c ∈ g, isLowerAlnum c = isLowerAlnum a) :
    (g.reverse ++ [a]).all isLowerAlnum = isLowerAlnum a := by
  cases ha : isLowerAlnum a
  · rw [List.all_eq_false]
    exact ⟨a, by simp, by simp [ha]⟩
  · rw [List.all_eq_true]
    intro x hx
    simp only [List.mem_append, List.mem_reverse, List.mem_singleton] at hx
    rcases hx with hx | hx
    · exact (hg x hx).trans ha
    · rw [hx]; exact ha

theorem replaceNonAlnumRunsFrom_alnum (inRun : Bool) (c : Char) (cs : List Char)
    (hc : isLowerAlnum c = true) :
    replaceNonAlnumRunsFrom inRun (c :: cs) = c :: replaceNonAlnumRunsFrom false cs := by
  simp [replaceNonAlnumRunsFrom, hc]

theorem replaceNonAlnumRunsFrom_inRun (c : Char) (cs : List Char)
    (hc : isLowerAlnum c = false) :
    replaceNonAlnumRunsFrom true (c :: cs) = replaceNonAlnumRunsFrom true cs := by
  simp [replaceNonAlnumRunsFrom, hc]

theorem replaceNonAlnumRunsFrom_start (c : Char) (cs : List Char)
    (hc : isLowerAlnum c = false) :
    replaceNonAlnumRunsFrom false (c :: cs) = '-' :: replaceNonAlnumRunsFrom true cs := by
  simp [replaceNonAlnumRunsFrom, hc]

theorem flatMap_splitByLoop (l : List Char) (a : Char) (g : List Char)
    (hg : ∀ c ∈ g, isLowerAlnum c = isLowerAlnum a) :
    (List.splitBy.loop (fun a b => isLowerAlnum a == isLowerAlnum b) l a g []).flatMap
        (fun r => if r.all isLowerAlnum then r else ['-'])
      = if isLowerAlnum a then g.reverse ++ a :: replaceNonAlnumRunsFrom false l
        else '-' :: replaceNonAlnumRunsFrom true l := by
  induction l generalizing a g with
  | nil =>
    have h := all_isLowerAlnum_run a g hg
    simp only [List.splitBy.loop, List.reverse_cons, List.reverse_nil, List.nil_append,
      List.flatMap_cons, List.flatMap_nil, List.append_nil, h, replaceNonAlnumRunsFrom]
  | cons b l ih =>
    have h := all_isLowerAlnum_run a g hg
    simp only [List.splitBy.loop]
    cases hab : (isLowerAlnum a == isLowerAlnum b)
    · -- the run ends at `a`
      have hne : isLowerAlnum a ≠ isLowerAlnum b := by simpa using hab
      simp only []
      rw [splitByLoop_append]
      simp only [List.reverse_cons, List.reverse_nil, List.nil_append, List.flatMap_append,
        List.flatMap_cons, List.flatMap_nil, List.append_nil, h]
      rw [ih b [] (by simp)]
      clear ih
      cases ha : isLowerAlnum a <;> cases hb : isLowerAlnum b
      · exact absurd (ha.trans hb.symm) hne
      · simp [replaceNonAlnumRunsFrom_alnum _ b l hb]
      · simp [replaceNonAlnumRunsFrom_start b l hb]
      · exact absurd (ha.trans hb.symm) hne
    · -- `b` continues the run of `a`
      have heq : isLowerAlnum a = isLowerAlnum b := by simpa using hab
      simp only []
      rw [ih b (a :: g) (by
        intro c hc
        rcases List.mem_cons.1 hc with hc | hc
        · rw [hc]; exact heq
        · exact (hg c hc).trans heq)]
      clear ih
      cases hb : isLowerAlnum b
      · simp [heq, hb, replaceNonAlnumRunsFrom_inRun b l hb]
      · simp [heq, hb, replaceNonAlnumRunsFrom_alnum _ b l hb]

theorem flatMap_splitBy (l : List Char) :
    (l.splitBy (fun a b => isLowerAlnum a == isLowerAlnum b)).flatMap
        (fun r => if r.all isLowerAlnum then r else ['-'])
      = replaceNonAlnumRuns l := by
  cases l with
  | nil => rfl
  | cons a l =>
    show (List.splitBy.loop _ l a [] []).flatMap _ = _
    rw [flatMap_splitByLoop l a [] (by simp)]
    unfold replaceNonAlnumRuns
    cases ha : isLowerAlnum a
    · simp [replaceNonAlnumRunsFrom_start a l ha]
    · simp [replaceNonAlnumRunsFrom_alnum _ a l ha]

theorem rdropWhile_cons (p : Char → Bool) (c : Char) (cs : List Char) :
    (c :: cs).rdropWhile p
      = if p c = true ∧ cs.all p = true then [] else c :: cs.rdropWhile p := by
  induction cs using List.reverseRecOn generalizing c with
  | nil => simp [List.rdropWhile_singleton]
  | append_singleton cs d ih =>
    rw [← List.cons_append]
    cases hd : p d
    · rw [List.rdropWhile_concat_neg _ _ _ (by simp [hd]),
        List.rdropWhile_concat_neg _ _ _ (by simp [hd])]
      simp [hd]
    · rw [List.rdropWhile_concat_pos _ _ _ hd, List.rdropWhile_concat_pos _ _ _ hd, ih]
      simp [hd]

theorem removeTrailingDashes_eq (l : List Char) :
    removeTrailingDashes l = l.rdropWhile (fun c => c == '-') := by
  induction l with
  | nil => simp [removeTrailingDashes]
  | cons c cs ih =>
    rw [rdropWhile_cons, removeTrailingDashes, ih]
    simp

theorem slug_eq_slugSpec (title : String) : slug title = slugSpec title := by
  simp only [slug, slugSpec, slugChars, removeEdgeDashes, removeTrailingDashes_eq,
    flatMap_splitBy, replaceAmpersands]
  congr 2

/-! ## Lemmas on `isAnimating`, rotations and completed steps -/

theorem handle_isAnimating {α : Type} (s : Carousel α) (e : Event)
    (h : s.isAnimating = true) (he : e ≠ Event.transitionend) :
    (handle s e).isAnimating = true := by
  cases e with
  | clickRight => simp [handle, goNext, h]
  | clickLeft => simp [handle, goPrev, h]
  | keydown key => simp [handle, onKeydown, goNext, goPrev, h]
  | down x => simp [handle, onDown, h]
  | move x =>
    show (onMove x s).isAnimating = true
    unfold onMove
    split <;> simp [setX, h]
  | up =>
    show (onUp s).isAnimating = true
    unfold onUp
    split
    · exact h
    · dsimp only
      split
      · exact h
      · split <;> exact h
  | transitionend => exact absurd rfl he
  | measure width gap => exact h

theorem run_isAnimating {α : Type} (events : List Event) :
    ∀ s : Carousel α, s.isAnimating = true → Event.transitionend ∉ events →
      (run s events).isAnimating = true := by
  induction events with
  | nil => intro s h _; exact h
  | cons e es ih =>
    intro s h hno
    have he : e ≠ Event.transitionend := fun hh => hno (by simp [hh])
    have hes : Event.transitionend ∉ es := fun hh => hno (List.mem_cons_of_mem _ hh)
    exact ih _ (handle_isAnimating s e h he) hes

theorem run_moves_ups {α : Type} (events : List Event) :
    ∀ s : Carousel α, s.dragging = false →
      (∀ e ∈ events, e = Event.up ∨ ∃ y, e = Event.move y) → run s events = s := by
  induction events with
  | nil => intro s _ _; rfl
  | cons e es ih =>
    intro s h hev
    have hstep : handle s e = s := by
      rcases hev e (List.mem_cons_self _ _) with he | ⟨y, he⟩
      · subst he; simp [handle, onUp, h]
      · subst he; simp [handle, onMove, h]
    show run (handle s e) es = s
    rw [hstep]
    exact ih s h (fun e' he' => hev e' (List.mem_cons_of_mem _ he'))

theorem appendFirstChild_eq_rotate {α : Type} (cs : List α) :
    appendFirstChild cs = cs.rotate 1 := by
  cases cs with
  | nil => rfl
  | cons c cs => simp [appendFirstChild, List.rotate_cons_succ]

theorem rotate_of_appendFirstChild {α : Type} (l cs : List α)
    (h : ∃ k, cs = l.rotate k) : ∃ k, appendFirstChild cs = l.rotate k := by
  obtain ⟨k, hk⟩ := h
  exact ⟨k + 1, by rw [appendFirstChild_eq_rotate, hk, List.rotate_rotate]⟩

theorem rotate_of_insertLastBeforeFirst {α : Type} (l cs : List α)
    (h : ∃ k, cs = l.rotate k) : ∃ k, insertLastBeforeFirst cs = l.rotate k := by
  obtain ⟨k, hk⟩ := h
  have h1 : (insertLastBeforeFirst cs).rotate 1 = cs := by
    rw [← appendFirstChild_eq_rotate, appendFirstChild_insertLastBeforeFirst]
  have h2 : List.IsRotated cs (insertLastBeforeFirst cs) :=
    List.IsRotated.symm ⟨1, h1⟩
  obtain ⟨m, hm⟩ := h2
  exact ⟨k + m, by rw [← hm, hk, List.rotate_rotate]⟩

theorem completedNext_of_idle {α : Type} (s : Carousel α) (hidle : Idle s)
    (hstep : s.step ≠ 0) :
    Idle (transitionend (goNext s)) ∧ (transitionend (goNext s)).step = s.step ∧
    (transitionend (goNext s)).children = s.children.rotate 1 := by
  obtain ⟨ha, hd, _, hl⟩ := hidle
  simp [Idle, goNext, transitionend, Listener.call, setX, ha, hd, hl, hstep,
    appendFirstChild_eq_rotate]

theorem completedPrev_of_idle {α : Type} (s : Carousel α) (hidle : Idle s)
    (hstep : s.step ≠ 0) :
    Idle (transitionend (goPrev s)) ∧ (transitionend (goPrev s)).step = s.step ∧
    (transitionend (goPrev s)).children.rotate 1 = s.children := by
  obtain ⟨ha, hd, _, hl⟩ := hidle
  simp [Idle, goPrev, transitionend, Listener.call, setX, ha, hd, hl, hstep,
    ← appendFirstChild_eq_rotate, appendFirstChild_insertLastBeforeFirst]

theorem completedNextSteps_of_idle {α : Type} (k : Nat) :
    ∀ s : Carousel α, Idle s → s.step ≠ 0 →
      Idle (completedNextSteps k s) ∧ (completedNextSteps k s).children = s.children.rotate k := by
  induction k with
  | zero => intro s hidle _; exact ⟨hidle, by simp [completedNextSteps]⟩
  | succ k ih =>
    intro s hidle hstep
    obtain ⟨h1, h2, h3⟩ := completedNext_of_idle s hidle hstep
    obtain ⟨h4, h5⟩ := ih _ h1 (by rw [h2]; exact hstep)
    refine ⟨h4, ?_⟩
    show (completedNextSteps k (transitionend (goNext s))).children = _
    rw [h5, h3, List.rotate_rotate, Nat.add_comm]

theorem completedPrevSteps_of_idle {α : Type} (k : Nat) :
    ∀ s : Carousel α, Idle s → s.step ≠ 0 →
      Idle (completedPrevSteps k s) ∧ (completedPrevSteps k s).children.rotate k = s.children := by
  induction k with
  | zero => intro s hidle _; exact ⟨hidle, by simp [completedPrevSteps]⟩
  | succ k ih =>
    intro s hidle hstep
    obtain ⟨h1, h2, h3⟩ := completedPrev_of_idle s hidle hstep
    obtain ⟨h4, h5⟩ := ih _ h1 (by rw [h2]; exact hstep)
    refine ⟨h4, ?_⟩
    show (completedPrevSteps k (transitionend (goPrev s))).children.rotate (k + 1) = _
    rw [← List.rotate_rotate, h5, h3]

/-! ## The carousel: round trip and guard -/

/-- Round trip without a callback pending: from a carousel at rest (not
animating, not dragging, offset `0`, no callback registered) with a non-zero
step width, `next`,
its `transitionend`, `prev` and its `transitionend` give back the original
child order with offset `0`, and so do `prev`, `transitionend`, `next`,
`transitionend`.  The number of children plays no role, so the statement
covers every track of at least 2 children. -/
theorem next_prev_round_trip {α : Type} (s : Carousel α) (hidle : Idle s)
    (hstep : s.step ≠ 0) :
    (transitionend (goPrev (transitionend (goNext s)))).children = s.children ∧
    (transitionend (goPrev (transitionend (goNext s)))).offset = 0 ∧
    (transitionend (goNext (transitionend (goPrev s)))).children = s.children ∧
    (transitionend (goNext (transitionend (goPrev s)))).offset = 0 := by
  obtain ⟨ha, _, _, hl⟩ := hidle
  simp [goNext, goPrev, transitionend, Listener.call, setX, ha, hl, hstep,
    insertLastBeforeFirst_appendFirstChild, appendFirstChild_insertLastBeforeFirst]

/-- The round trip on the measured three-item carousel. -/
theorem next_prev_round_trip_witness :
    2 ≤ threeItems.children.length ∧
    (transitionend (goPrev (transitionend (goNext threeItems)))).children = [1, 2, 3] ∧
    (transitionend (goPrev (transitionend (goNext threeItems)))).offset = 0 ∧
    (transitionend (goNext (transitionend (goPrev threeItems)))).children = [1, 2, 3] ∧
    (transitionend (goNext (transitionend (goPrev threeItems)))).offset = 0 :=
  ⟨by decide, next_prev_round_trip threeItems ⟨rfl, rfl, rfl, rfl⟩ (by decide)⟩

/-- C2. Guard: while `isAnimating` is true, a `next` request and a `prev`
request, whether they come from an arrow button or from an arrow key, return
the state as it is: no listener is added, the children, the offset and
`isAnimating` stay as they are. -/
theorem guard_holds {α : Type} (s : Carousel α) (h : s.isAnimating = true) :
    goNext s = s ∧ goPrev s = s ∧
    handle s Event.clickRight = s ∧ handle s Event.clickLeft = s ∧
    handle s (Event.keydown "ArrowRight") = s ∧
    handle s (Event.keydown "ArrowLeft") = s := by
  simp [handle, onKeydown, goNext, goPrev, h]

/-- Witness of C2 on the three-item carousel while its `next` is in flight. -/
theorem guard_holds_witness :
    (goNext threeItems).isAnimating = true ∧
    goNext (goNext threeItems) = goNext threeItems ∧
    goPrev (goNext threeItems) = goNext threeItems ∧
    handle (goNext threeItems) Event.clickRight = goNext threeItems ∧
    handle (goNext threeItems) Event.clickLeft = goNext threeItems ∧
    handle (goNext threeItems) (Event.keydown "ArrowRight") = goNext threeItems ∧
    handle (goNext threeItems) (Event.keydown "ArrowLeft") = goNext threeItems :=
  ⟨by decide, guard_holds (goNext threeItems) (by decide)⟩

/-! ## The carousel: swipes -/

/-- Swipe threshold without a callback pending: from a carousel at rest (not
animating, not dragging, offset `0`, no callback registered) with a non-zero
step width, a
drag from `startX` to `currentX` with `dx = currentX - startX` ends, once the
pending `transitionend` is delivered, with the child order and offset of a
completed `next` when `dx ≤ -30` (first child last, offset `0`); it ends, with
nothing pending, with the child order and offset of a completed `prev` when
`dx ≥ 30` (last child first, offset `0`); and it ends with the original order,
offset `0` and nothing pending when `-30 < dx < 30`. -/
theorem swipe_threshold {α : Type} (s : Carousel α) (hidle : Idle s)
    (hstep : s.step ≠ 0) (startX currentX : Int) :
    (currentX - startX ≤ -30 →
      (drag startX currentX s).listeners ≠ [] ∧
      (transitionend (drag startX currentX s)).children
        = (transitionend (goNext s)).children ∧
      (transitionend (drag startX currentX s)).offset
        = (transitionend (goNext s)).offset ∧
      (transitionend (drag startX currentX s)).children = appendFirstChild s.children ∧
      (transitionend (drag startX currentX s)).offset = 0) ∧
    (currentX - startX ≥ 30 →
      (drag startX currentX s).listeners = [] ∧
      (drag startX currentX s).children = (transitionend (goPrev s)).children ∧
      (drag startX currentX s).offset = (transitionend (goPrev s)).offset ∧
      (drag startX currentX s).children = insertLastBeforeFirst s.children ∧
      (drag startX currentX s).offset = 0) ∧
    (-30 < currentX - startX ∧ currentX - startX < 30 →
      (drag startX currentX s).listeners = [] ∧
      (drag startX currentX s).children = s.children ∧
      (drag startX currentX s).offset = 0) := by
  obtain ⟨ha, _, _, hl⟩ := hidle
  refine ⟨fun h => ?_, fun h => ?_, fun h => ?_⟩
  · simp [drag, onUp, onMove, onDown, goNext, transitionend, Listener.call, setX, TH,
      ha, hl, hstep, h]
  · have h1 : ¬ currentX - startX ≤ -30 := by omega
    have h2 : (30 : Int) ≤ currentX - startX := h
    simp [drag, onUp, onMove, onDown, goPrev, transitionend, Listener.call, setX, TH,
      ha, hl, hstep, h1, h2]
  · have h1 : ¬ currentX - startX ≤ -30 := by omega
    have h2 : ¬ (30 : Int) ≤ currentX - startX := by omega
    simp [drag, onUp, onMove, onDown, setX, TH, ha, hl, h1, h2]

/-- The swipe threshold on the three-item carousel: a drag with `dx = -31` ends like
`next`, a drag with `dx = -29` restores the original order. -/
theorem swipe_threshold_witness :
    ((transitionend (drag 100 69 threeItems)).children
        = (transitionend (goNext threeItems)).children ∧
      (transitionend (drag 100 69 threeItems)).offset
        = (transitionend (goNext threeItems)).offset ∧
      (transitionend (drag 100 69 threeItems)).children = [2, 3, 1] ∧
      (transitionend (drag 100 69 threeItems)).offset = 0) ∧
    ((drag 100 71 threeItems).listeners = [] ∧
      (drag 100 71 threeItems).children = [1, 2, 3] ∧
      (drag 100 71 threeItems).offset = 0) :=
  ⟨((swipe_threshold threeItems ⟨rfl, rfl, rfl, rfl⟩ (by decide) 100 69).1 (by decide)).2,
   (swipe_threshold threeItems ⟨rfl, rfl, rfl, rfl⟩ (by decide) 100 71).2.2 (by decide)⟩

/-- Counterexample to C4 as stated: on the three-item carousel with a drag
being tracked, `next` is carried out (it sets `isAnimating`, moves the offset
to `-216` and registers its callback), and `prev` reorders the children. -/
theorem dragging_does_not_block :
    (onDown 100 threeItems).dragging = true ∧
    (onDown 100 threeItems).isAnimating = false ∧
    (onDown 100 threeItems).offset = 0 ∧
    (onDown 100 threeItems).listeners = [] ∧
    (onDown 100 threeItems).children = [1, 2, 3] ∧
    (goNext (onDown 100 threeItems)).isAnimating = true ∧
    (goNext (onDown 100 threeItems)).offset = -216 ∧
    (goNext (onDown 100 threeItems)).listeners = [Listener.goNextOnEnd] ∧
    (goPrev (onDown 100 threeItems)).isAnimating = true ∧
    (goPrev (onDown 100 threeItems)).children = [3, 1, 2] ∧
    (goPrev (onDown 100 threeItems)).listeners = [Listener.goPrevOnEnd] := by
  decide

/-- C4, amended. While a drag is tracked, a `next` or `prev` request is dropped
(the state stays as it is) when `isAnimating` is true or the step width is
zero; otherwise it is carried out as from rest, the drag staying tracked:
`next` sets `isAnimating`, commits the offset `-step` and registers its
callback; `prev` sets `isAnimating`, moves the last child to the front, leaves
the offset `0` with the eased transition and registers its callback. -/
theorem navigation_while_dragging {α : Type} (s : Carousel α)
    (hdrag : s.dragging = true) :
    (s.isAnimating = true ∨ s.step = 0 → goNext s = s ∧ goPrev s = s) ∧
    (s.isAnimating = false → s.step ≠ 0 →
      goNext s = { s with isAnimating := true, offset := -s.step, dragging := true,
                          listeners := s.listeners ++ [Listener.goNextOnEnd] } ∧
      goPrev s = { s with isAnimating := true, offset := 0, dragging := true,
                          children := insertLastBeforeFirst s.children,
                          transition := Transition.eased,
                          listeners := s.listeners ++ [Listener.goPrevOnEnd] }) := by
  refine ⟨fun h => ?_, fun ha hs => ?_⟩
  · simp [goNext, goPrev, h]
  · simp [goNext, goPrev, setX, ha, hs, hdrag]

/-- Witness of the amended C4 on the three-item carousel during a drag. -/
theorem navigation_while_dragging_witness :
    (goNext (onDown 100 threeItems)).isAnimating = true ∧
    (goNext (onDown 100 threeItems)).dragging = true ∧
    (goPrev (onDown 100 threeItems)).children = [3, 1, 2] ∧
    goNext (goNext (onDown 100 threeItems)) = goNext (onDown 100 threeItems) :=
  ⟨by rw [((navigation_while_dragging (onDown 100 threeItems) rfl).2 rfl (by decide)).1],
   by rw [((navigation_while_dragging (onDown 100 threeItems) rfl).2 rfl (by decide)).1],
   by rw [((navigation_while_dragging (onDown 100 threeItems) rfl).2 rfl (by decide)).2]; rfl,
   ((navigation_while_dragging (goNext (onDown 100 threeItems)) rfl).1 (Or.inl rfl)).1⟩

/-! ## The carousel: one item, and the children as a whole -/

/-- Counterexample to C5 as stated: a one-item carousel measured with item
width 200 and gap 16 has step width 216, and `next` on it sets `isAnimating`
and moves the offset to `-216`. -/
theorem single_item_step_not_zero :
    oneItem.children = [7] ∧ oneItem.step = 216 ∧
    oneItem.isAnimating = false ∧ oneItem.offset = 0 ∧
    (goNext oneItem).isAnimating = true ∧ (goNext oneItem).offset = -216 ∧
    (goPrev oneItem).isAnimating = true := by
  decide

/-- C5, amended. On a track with exactly one child, measurement gives the step
width `width + gap` of that child (zero only when that sum is zero); no
sequence of events changes the child order; `next` and `prev` leave the whole
state as it is when the step width is zero; and from rest with a non-zero
step width `next` sets `isAnimating` and the offset `-step`, `prev` sets
`isAnimating`, and the `transitionend` of either leaves offset `0` and
`isAnimating` false. -/
theorem single_item {α : Type} (s : Carousel α) (c : α) (hone : s.children = [c])
    (width gap : Int) :
    (measure width gap s).step = width + gap ∧
    (∀ events : List Event, (run s events).children = [c]) ∧
    (s.step = 0 → goNext s = s ∧ goPrev s = s) ∧
    (Idle s → s.step ≠ 0 →
      (goNext s).isAnimating = true ∧ (goNext s).offset = -s.step ∧
      (goPrev s).isAnimating = true ∧ (goPrev s).offset = 0 ∧
      (transitionend (goNext s)).isAnimating = false ∧
      (transitionend (goNext s)).offset = 0 ∧
      (transitionend (goPrev s)).isAnimating = false ∧
      (transitionend (goPrev s)).offset = 0) := by
  refine ⟨by simp [measure, computeStep, setX, hone], fun events => ?_,
    fun h => by simp [goNext, goPrev, h], fun hidle hs => ?_⟩
  · refine run_children (fun cs => cs = [c]) ?_ ?_ events s hone
    · intro cs h; subst h; rfl
    · intro cs h; subst h; rfl
  · obtain ⟨ha, _, _, hl⟩ := hidle
    simp [goNext, goPrev, transitionend, Listener.call, setX, ha, hl, hs]

/-- Witness of the amended C5 on the measured one-item carousel. -/
theorem single_item_witness :
    (measure 200 16 oneItem).step = 200 + 16 ∧
    (run oneItem [Event.clickRight, Event.transitionend, Event.clickLeft]).children = [7] ∧
    (transitionend (goNext oneItem)).offset = 0 :=
  ⟨(single_item oneItem 7 rfl 200 16).1,
   (single_item oneItem 7 rfl 200 16).2.1 _,
   ((single_item oneItem 7 rfl 200 16).2.2.2 ⟨rfl, rfl, rfl, rfl⟩ (by decide)).2.2.2.2.2.1⟩

/-- C6. Same children, merely reordered: after any finite sequence of events
the track's children are a permutation of the children before it; in
particular, from the state `initInfiniteCarousel` leaves, they are a
permutation of the rendered items. -/
theorem children_perm {α : Type} :
    (∀ (s : Carousel α) (events : List Event), (run s events).children.Perm s.children) ∧
    (∀ (items : List α) (events : List Event),
      (run (initInfiniteCarousel items) events).children.Perm items) := by
  have key : ∀ (s : Carousel α) (events : List Event),
      (run s events).children.Perm s.children := by
    intro s events
    refine run_children (fun cs => cs.Perm s.children) ?_ ?_ events s (List.Perm.refl _)
    · intro cs h; exact (appendFirstChild_perm cs).trans h
    · intro cs h; exact (insertLastBeforeFirst_perm cs).trans h
  exact ⟨key, fun items events => key (initInfiniteCarousel items) events⟩

/-! ## Anchor ids and layout -/

/-- C7. Slug derivation: the anchor id of a section is `sec-` followed by the
slug of its title, and the slug computed by the three `replace` calls is the
title lowercased, with `and` for every `&`, one `-` for every maximal run of
characters outside `a`-`z` and `0`-`9`, and no `-` at either end. The title
`Soups & Salads!` gives `sec-soups-and-salads`, the title `  --Tea--  ` gives
`sec-tea`. -/
theorem slug_derivation :
    (∀ title : String, anchorId title = "sec-" ++ slug title) ∧
    (∀ title : String, slug title = slugSpec title) ∧
    anchorId "Soups & Salads!" = "sec-soups-and-salads" ∧
    anchorId "  --Tea--  " = "sec-tea" :=
  ⟨fun _ => rfl, slug_eq_slugSpec, by decide, by decide⟩

/-- C8. Layout selection: type `carousel` selects the carousel and type `grid`
the grid, whatever the items; without a type the carousel is selected exactly
when there are more than 4 items, a missing item list selecting the grid.
Type `grid` with 10 items is a grid, no type with 5 items a carousel, no type
with 4 items a grid. -/
theorem layout_selection :
    (∀ sec : Section, sec.type = some "carousel" → isCarousel sec = true) ∧
    (∀ sec : Section, sec.type = some "grid" → isCarousel sec = false) ∧
    (∀ sec : Section, sec.type = none → sec.items = none → isCarousel sec = false) ∧
    (∀ (sec : Section) (items : List Item), sec.type = none → sec.items = some items →
      (isCarousel sec = true ↔ 4 < items.length)) ∧
    isCarousel (sectionOf (some "grid") 10) = false ∧
    isCarousel (sectionOf none 5) = true ∧
    isCarousel (sectionOf none 4) = false := by
  have hc : toLowerCase "carousel" = "carousel" := by decide
  have hg : toLowerCase "grid" = "grid" := by decide
  have he : toLowerCase "" = "" := by decide
  refine ⟨?_, ?_, ?_, ?_, by decide, by decide, by decide⟩
  · intro sec h
    simp [isCarousel, h, hc]
  · intro sec h
    simp [isCarousel, h, hg]
  · intro sec h hi
    simp [isCarousel, h, hi, he]
  · intro sec items h hi
    have h1 : ("" : String) ≠ "carousel" := by decide
    have h2 : ("" : String) ≠ "grid" := by decide
    simp [isCarousel, h, hi, he, h1, h2]

/-! ## The carousel: completed swipes and the guard -/

/-- C9, evaluated at the failing input. On the measured three-item carousel a
forward swipe (`dx = -31`) registers its reordering callback and leaves
`isAnimating` false, so the following click on the right arrow is carried
out: two reordering callbacks are pending, and the one `transitionend` that
follows moves two children (`[1, 2, 3]` becomes `[3, 1, 2]`). -/
theorem swipe_leaves_guard_open :
    (run threeItems [Event.down 100, Event.move 69, Event.up]).isAnimating = false ∧
    (run threeItems [Event.down 100, Event.move 69, Event.up]).listeners
      = [Listener.onUpOnEnd] ∧
    (run threeItems [Event.down 100, Event.move 69, Event.up, Event.clickRight]).listeners
      = [Listener.onUpOnEnd, Listener.goNextOnEnd] ∧
    (run threeItems [Event.down 100, Event.move 69, Event.up, Event.clickRight]).children
      = [1, 2, 3] ∧
    (run threeItems [Event.down 100, Event.move 69, Event.up, Event.clickRight,
      Event.transitionend]).children = [3, 1, 2] := by
  decide

/-- C10, evaluated at the failing input. On a three-item carousel that was
not measured yet (step width `0`) a backward swipe (`dx = 30`) moves the last
child to the front, and a forward swipe (`dx = -30`) registers a callback
that moves the first child to the end at the next `transitionend`; `next` and
`prev` leave the same state as it is. -/
theorem zero_step_swipe_reorders :
    (initInfiniteCarousel [1, 2, 3]).step = 0 ∧
    goNext (initInfiniteCarousel [1, 2, 3]) = initInfiniteCarousel [1, 2, 3] ∧
    goPrev (initInfiniteCarousel [1, 2, 3]) = initInfiniteCarousel [1, 2, 3] ∧
    (run (initInfiniteCarousel [1, 2, 3])
      [Event.down 0, Event.move 30, Event.up]).children = [3, 1, 2] ∧
    (run (initInfiniteCarousel [1, 2, 3])
      [Event.down 0, Event.move (-30), Event.up]).listeners = [Listener.onUpOnEnd] ∧
    (run (initInfiniteCarousel [1, 2, 3])
      [Event.down 0, Event.move (-30), Event.up, Event.transitionend]).children
      = [2, 3, 1] := by
  decide

/-! ## The carousel: effect of one step -/

/-- Effect of `next` without a callback pending: from a carousel at rest (not
animating, not dragging, offset `0`, no callback registered) with a non-zero step
width, a `next` request sets `isAnimating` and the offset `-step` and keeps
the child order; the `transitionend` that follows turns the children `c0, c1,
..., cn` into `c1, ..., cn, c0`, sets the offset `0`, enables the eased
transition again and clears `isAnimating`. -/
theorem next_effect {α : Type} (s : Carousel α) (hidle : Idle s) (hstep : s.step ≠ 0) :
    (goNext s).isAnimating = true ∧
    (goNext s).offset = -s.step ∧
    (goNext s).children = s.children ∧
    (∀ (c0 : α) (rest : List α), s.children = c0 :: rest →
      (transitionend (goNext s)).children = rest ++ [c0]) ∧
    (transitionend (goNext s)).offset = 0 ∧
    (transitionend (goNext s)).transition = Transition.eased ∧
    (transitionend (goNext s)).isAnimating = false := by
  obtain ⟨ha, _, _, hl⟩ := hidle
  refine ⟨?_, ?_, ?_, ?_, ?_, ?_, ?_⟩ <;>
    simp [goNext, transitionend, Listener.call, setX, ha, hl, hstep]
  intro c0 rest h
  simp [h, appendFirstChild]

/-- The effect of `next` on the measured three-item carousel. -/
theorem next_effect_witness :
    (goNext threeItems).isAnimating = true ∧
    (goNext threeItems).offset = -216 ∧
    (goNext threeItems).children = [1, 2, 3] ∧
    (transitionend (goNext threeItems)).children = [2, 3] ++ [1] ∧
    (transitionend (goNext threeItems)).offset = 0 ∧
    (transitionend (goNext threeItems)).transition = Transition.eased ∧
    (transitionend (goNext threeItems)).isAnimating = false :=
  have h := next_effect threeItems ⟨rfl, rfl, rfl, rfl⟩ (by decide)
  ⟨h.1, h.2.1, h.2.2.1, h.2.2.2.1 1 [2, 3] rfl, h.2.2.2.2.1, h.2.2.2.2.2.1, h.2.2.2.2.2.2⟩

/-- Effect of `prev` without a callback pending: from a carousel at rest (not
animating, not dragging, offset `0`, no callback registered) with a non-zero step
width, a `prev` request at once turns the children `c0, ..., cn-1, cn` into
`cn, c0, ..., cn-1`, sets `isAnimating` and leaves the committed offset `0`
with the eased transition; the `transitionend` that follows clears
`isAnimating` and changes neither the child order nor the offset. -/
theorem prev_effect {α : Type} (s : Carousel α) (hidle : Idle s) (hstep : s.step ≠ 0) :
    (∀ (front : List α) (cn : α), s.children = front ++ [cn] →
      (goPrev s).children = cn :: front) ∧
    (goPrev s).isAnimating = true ∧
    (goPrev s).offset = 0 ∧
    (goPrev s).transition = Transition.eased ∧
    (transitionend (goPrev s)).isAnimating = false ∧
    (transitionend (goPrev s)).children = (goPrev s).children ∧
    (transitionend (goPrev s)).offset = (goPrev s).offset := by
  obtain ⟨ha, _, _, hl⟩ := hidle
  refine ⟨?_, ?_, ?_, ?_, ?_, ?_, ?_⟩ <;>
    simp [goPrev, transitionend, Listener.call, setX, ha, hl, hstep]
  intro front cn h
  rw [h, insertLastBeforeFirst_concat]

/-- The effect of `prev` on the measured three-item carousel. -/
theorem prev_effect_witness :
    (goPrev threeItems).children = 3 :: [1, 2] ∧
    (goPrev threeItems).isAnimating = true ∧
    (goPrev threeItems).offset = 0 ∧
    (goPrev threeItems).transition = Transition.eased ∧
    (transitionend (goPrev threeItems)).isAnimating = false ∧
    (transitionend (goPrev threeItems)).children = (goPrev threeItems).children ∧
    (transitionend (goPrev threeItems)).offset = (goPrev threeItems).offset :=
  have h := prev_effect threeItems ⟨rfl, rfl, rfl, rfl⟩ (by decide)
  ⟨h.1 [1, 2] 3 rfl, h.2⟩

/-! ## The carousel: while a transition is in flight -/

/-- Counterexample to C16 as stated: on the three-item carousel with a drag
tracked and a `next` in flight (pointer down, then the right arrow key),
`isAnimating` is true and a further drag start leaves the state as it is, but
`dragging` is true, and the following drag move and drag end do change the
state. -/
theorem drag_continues_while_animating :
    draggingAndAnimating.isAnimating = true ∧
    onDown 50 draggingAndAnimating = draggingAndAnimating ∧
    (onDown 50 draggingAndAnimating).dragging = true ∧
    (onMove 60 (onDown 50 draggingAndAnimating)).offset = -40 ∧
    onMove 60 (onDown 50 draggingAndAnimating) ≠ onDown 50 draggingAndAnimating ∧
    onUp (onMove 60 (onDown 50 draggingAndAnimating))
      ≠ onMove 60 (onDown 50 draggingAndAnimating) := by
  decide

/-- C16, amended. While `isAnimating` is true a drag start leaves the whole
state as it is (`dragging`, the recorded start position, the offset, the
transition and the child order); when no drag was tracked before it,
`dragging` stays false and every following sequence of drag moves and drag
ends leaves the state as it is too. -/
theorem drag_start_ignored {α : Type} (s : Carousel α) (h : s.isAnimating = true)
    (x : Int) :
    onDown x s = s ∧ handle s (Event.down x) = s ∧
    (s.dragging = false →
      (onDown x s).dragging = false ∧
      ∀ events : List Event, (∀ e ∈ events, e = Event.up ∨ ∃ y, e = Event.move y) →
        run (onDown x s) events = s) := by
  have h1 : onDown x s = s := by simp [onDown, h]
  refine ⟨h1, h1, fun hd => ⟨by rw [h1]; exact hd, fun events hev => ?_⟩⟩
  rw [h1]
  exact run_moves_ups events s hd hev

/-- Witness of the amended C16 on the three-item carousel while its `next` is
in flight. -/
theorem drag_start_ignored_witness :
    onDown 50 (goNext threeItems) = goNext threeItems ∧
    (onDown 50 (goNext threeItems)).dragging = false ∧
    run (onDown 50 (goNext threeItems)) [Event.move 10, Event.move (-40), Event.up]
      = goNext threeItems :=
  have h := drag_start_ignored (goNext threeItems) (by decide) 50
  ⟨h.1, (h.2.2 (by decide)).1, (h.2.2 (by decide)).2 _ (by
    intro e he
    simp only [List.mem_cons, List.mem_singleton, List.not_mem_nil, or_false] at he
    rcases he with he | he | he
    · exact Or.inr ⟨10, he⟩
    · exact Or.inr ⟨-40, he⟩
    · exact Or.inl he)⟩

/-- C17. Stuck animating: from a state with `isAnimating` true, every finite
sequence of events without a `transitionend` (clicks, keys, drag start, move
and end, measure) leaves `isAnimating` true, and a `next` or `prev` request
after it, by button or by key, leaves the state, the child order included, as
it is. No event of the controller other than `transitionend` clears
`isAnimating`. -/
theorem stuck_animating {α : Type} (s : Carousel α) (h : s.isAnimating = true)
    (events : List Event) (hno : Event.transitionend ∉ events) :
    (run s events).isAnimating = true ∧
    goNext (run s events) = run s events ∧
    goPrev (run s events) = run s events ∧
    (run s (events ++ [Event.clickRight])).children = (run s events).children ∧
    (run s (events ++ [Event.clickLeft])).children = (run s events).children ∧
    (run s (events ++ [Event.keydown "ArrowRight"])).children = (run s events).children ∧
    (run s (events ++ [Event.keydown "ArrowLeft"])).children = (run s events).children := by
  have ha := run_isAnimating events s h hno
  simp [run, List.foldl_append, handle, onKeydown, goNext, goPrev] at ha ⊢
  simp [ha]

/-- Witness of C17 on the three-item carousel after a committed `next`. -/
theorem stuck_animating_witness :
    (goNext threeItems).isAnimating = true ∧
    (run (goNext threeItems) [Event.clickLeft, Event.down 5, Event.move 50, Event.up,
      Event.measure 100 10, Event.keydown "ArrowRight"]).isAnimating = true ∧
    (run (goNext threeItems) ([Event.clickLeft, Event.down 5, Event.move 50, Event.up,
      Event.measure 100 10, Event.keydown "ArrowRight"] ++ [Event.clickLeft])).children
      = (run (goNext threeItems) [Event.clickLeft, Event.down 5, Event.move 50, Event.up,
      Event.measure 100 10, Event.keydown "ArrowRight"]).children :=
  have h := stuck_animating (goNext threeItems) (by decide)
    [Event.clickLeft, Event.down 5, Event.move 50, Event.up, Event.measure 100 10,
      Event.keydown "ArrowRight"] (by decide)
  ⟨by decide, h.1, h.2.2.2.2.1⟩

/-! ## The carousel: rotations -/

/-- C18. Cyclic order: after any finite sequence of events the track's
children are a rotation of the children before it; in particular, from the
state `initInfiniteCarousel` leaves, they are a rotation of the rendered
items. -/
theorem children_rotation {α : Type} :
    (∀ (s : Carousel α) (events : List Event),
      ∃ k, (run s events).children = s.children.rotate k) ∧
    (∀ (items : List α) (events : List Event),
      ∃ k, (run (initInfiniteCarousel items) events).children = items.rotate k) := by
  have key : ∀ (s : Carousel α) (events : List Event),
      ∃ k, (run s events).children = s.children.rotate k := by
    intro s events
    exact run_children (fun cs => ∃ k, cs = s.children.rotate k)
      (rotate_of_appendFirstChild s.children) (rotate_of_insertLastBeforeFirst s.children)
      events s ⟨0, by simp⟩
  exact ⟨key, fun items events => key (initInfiniteCarousel items) events⟩

/-- Full cycle without a callback pending: from a carousel at rest (not
animating, not dragging, offset `0`, no callback registered) with `n ≥ 1`
children and a
non-zero step width, `n` completed `next` steps give back the original child
order with offset `0` and `isAnimating` false, and with distinct children `k`
completed `next` steps, `0 < k < n`, give another order; both hold for
completed `prev` steps as well. -/
theorem full_cycle {α : Type} (s : Carousel α) (hidle : Idle s) (hstep : s.step ≠ 0)
    (hn : 1 ≤ s.children.length) :
    ((completedNextSteps s.children.length s).children = s.children ∧
      (completedNextSteps s.children.length s).offset = 0 ∧
      (completedNextSteps s.children.length s).isAnimating = false) ∧
    (s.children.Nodup → ∀ k, 0 < k → k < s.children.length →
      (completedNextSteps k s).children ≠ s.children) ∧
    ((completedPrevSteps s.children.length s).children = s.children ∧
      (completedPrevSteps s.children.length s).offset = 0 ∧
      (completedPrevSteps s.children.length s).isAnimating = false) ∧
    (s.children.Nodup → ∀ k, 0 < k → k < s.children.length →
      (completedPrevSteps k s).children ≠ s.children) := by
  have hne : s.children ≠ [] := by
    intro h0
    rw [h0] at hn
    simp at hn
  have hrot : ∀ k, 0 < k → k < s.children.length → s.children.Nodup →
      s.children.rotate k ≠ s.children := by
    intro k hk0 hkn hnd heq
    rcases (hnd.rotate_eq_self_iff).1 heq with h | h
    · rw [Nat.mod_eq_of_lt hkn] at h
      omega
    · exact hne h
  refine ⟨?_, ?_, ?_, ?_⟩
  · obtain ⟨⟨ha, _, ho, _⟩, hc⟩ := completedNextSteps_of_idle s.children.length s hidle hstep
    exact ⟨by rw [hc, List.rotate_length], ho, ha⟩
  · intro hnd k hk0 hkn
    rw [(completedNextSteps_of_idle k s hidle hstep).2]
    exact hrot k hk0 hkn hnd
  · obtain ⟨⟨ha, _, ho, _⟩, hc⟩ := completedPrevSteps_of_idle s.children.length s hidle hstep
    refine ⟨?_, ho, ha⟩
    have hlen : (completedPrevSteps s.children.length s).children.length = s.children.length := by
      have := congrArg List.length hc
      simpa using this
    have h2 := List.rotate_length (completedPrevSteps s.children.length s).children
    rw [hlen, hc] at h2
    exact h2.symm
  · intro hnd k hk0 hkn heq
    have hc := (completedPrevSteps_of_idle k s hidle hstep).2
    rw [heq] at hc
    exact hrot k hk0 hkn hnd hc

/-- The full cycle on the measured three-item carousel: three completed steps
restore `[1, 2, 3]`, one or two do not. -/
theorem full_cycle_witness :
    (completedNextSteps 3 threeItems).children = [1, 2, 3] ∧
    (completedNextSteps 1 threeItems).children ≠ [1, 2, 3] ∧
    (completedPrevSteps 3 threeItems).children = [1, 2, 3] ∧
    (completedPrevSteps 2 threeItems).children ≠ [1, 2, 3] :=
  have h := full_cycle threeItems ⟨rfl, rfl, rfl, rfl⟩ (by decide) (by decide)
  ⟨h.1.1, h.2.1 (by decide) 1 (by decide) (by decide), h.2.2.1.1,
   h.2.2.2 (by decide) 2 (by decide) (by decide)⟩


/-! ## Shape of a slug -/

theorem isLowerAlnum_dash : isLowerAlnum '-' = false := by decide

theorem replaceNonAlnumRunsFrom_mem (l : List Char) :
    ∀ (inRun : Bool) (c : Char), c ∈ replaceNonAlnumRunsFrom inRun l →
      isLowerAlnum c = true ∨ c = '-' := by
  induction l with
  | nil => intro inRun c h; simp [replaceNonAlnumRunsFrom] at h
  | cons a l ih =>
    intro inRun c h
    cases ha : isLowerAlnum a
    · cases inRun
      · rw [replaceNonAlnumRunsFrom_start a l ha] at h
        rcases List.mem_cons.1 h with h | h
        · exact Or.inr h
        · exact ih _ c h
      · rw [replaceNonAlnumRunsFrom_inRun a l ha] at h
        exact ih _ c h
    · rw [replaceNonAlnumRunsFrom_alnum inRun a l ha] at h
      rcases List.mem_cons.1 h with h | h
      · exact Or.inl (h ▸ ha)
      · exact ih _ c h

theorem replaceNonAlnumRunsFrom_chain (l : List Char) :
    ∀ inRun : Bool,
      List.Chain' (fun a b => ¬ (a = '-' ∧ b = '-')) (replaceNonAlnumRunsFrom inRun l) ∧
      (inRun = true → (replaceNonAlnumRunsFrom inRun l).head? ≠ some '-') := by
  induction l with
  | nil => intro inRun; simp [replaceNonAlnumRunsFrom]
  | cons a l ih =>
    intro inRun
    cases ha : isLowerAlnum a
    · cases inRun
      · rw [replaceNonAlnumRunsFrom_start a l ha]
        refine ⟨?_, by simp⟩
        rw [List.chain'_cons']
        refine ⟨fun y hy hpair => ?_, (ih true).1⟩
        have := (ih true).2 rfl
        rw [Option.mem_def] at hy
        rw [hy, hpair.2] at this
        exact this rfl
      · rw [replaceNonAlnumRunsFrom_inRun a l ha]
        exact ih true
    · rw [replaceNonAlnumRunsFrom_alnum inRun a l ha]
      have hne : a ≠ '-' := by
        intro h
        rw [h, isLowerAlnum_dash] at ha
        exact Bool.noConfusion ha
      refine ⟨?_, fun _ => by simpa using hne⟩
      rw [List.chain'_cons']
      exact ⟨fun y _ hpair => hne hpair.1, (ih false).1⟩

theorem removeEdgeDashes_eq (l : List Char) :
    removeEdgeDashes l
      = (l.dropWhile (fun c => c == '-')).rdropWhile (fun c => c == '-') := by
  unfold removeEdgeDashes
  rw [removeTrailingDashes_eq]
  congr 2

theorem removeEdgeDashes_within (l : List Char) : removeEdgeDashes l <:+: l := by
  rw [removeEdgeDashes_eq]
  exact (List.rdropWhile_prefix (fun c => c == '-') _).isInfix.trans
    (List.dropWhile_suffix _).isInfix

theorem removeEdgeDashes_head (l : List Char) : (removeEdgeDashes l).head? ≠ some '-' := by
  rw [removeEdgeDashes_eq]
  have hd := List.head?_dropWhile_not (fun c => c == '-') l
  obtain ⟨t, ht⟩ := List.rdropWhile_prefix (fun c => c == '-')
    (l.dropWhile (fun c => c == '-'))
  generalize (l.dropWhile (fun c => c == '-')).rdropWhile (fun c => c == '-') = r at ht
  cases r with
  | nil => simp
  | cons a r =>
    rw [← ht] at hd
    simp at hd
    simpa using hd

theorem removeEdgeDashes_getLast (l : List Char) :
    (removeEdgeDashes l).getLast? ≠ some '-' := by
  rw [removeEdgeDashes_eq]
  intro h
  have hne : (l.dropWhile (fun c => c == '-')).rdropWhile (fun c => c == '-') ≠ [] := by
    intro h0
    rw [h0] at h
    simp at h
  have := List.rdropWhile_last_not (fun c => c == '-') _ hne
  rw [List.getLast?_eq_getLast _ hne] at h
  simp at h
  simp [h] at this

theorem slugChars_shape (s : List Char) :
    (∀ c ∈ slugChars s, isLowerAlnum c = true ∨ c = '-') ∧
    (slugChars s).head? ≠ some '-' ∧
    (slugChars s).getLast? ≠ some '-' ∧
    List.Chain' (fun a b => ¬ (a = '-' ∧ b = '-')) (slugChars s) := by
  unfold slugChars replaceNonAlnumRuns
  refine ⟨fun c hc => ?_, removeEdgeDashes_head _, removeEdgeDashes_getLast _, ?_⟩
  · exact replaceNonAlnumRunsFrom_mem _ false c ((removeEdgeDashes_within _).subset hc)
  · exact List.Chain'.infix (replaceNonAlnumRunsFrom_chain _ false).1
      (removeEdgeDashes_within _)

theorem toLowerCaseChar_of_slugChar (c : Char)
    (h : isLowerAlnum c = true ∨ c = '-') : toLowerCaseChar c = [c] := by
  have hn : (97 ≤ c.toNat ∧ c.toNat ≤ 122) ∨ (48 ≤ c.toNat ∧ c.toNat ≤ 57) ∨ c.toNat = 45 := by
    rcases h with h | h
    · simp only [isLowerAlnum, Bool.or_eq_true, Bool.and_eq_true, decide_eq_true_eq] at h
      rcases h with h | h
      · exact Or.inl h
      · exact Or.inr (Or.inl h)
    · rw [h]
      exact Or.inr (Or.inr (by decide))
  unfold toLowerCaseChar
  have h1 : ¬ (65 ≤ c.toNat ∧ c.toNat ≤ 90) := by omega
  have h2 : ¬ c.toNat = 0x212A := by omega
  have h3 : ¬ c.toNat = 0x0130 := by omega
  simp [h1, h2, h3]

theorem toLowerCaseChars_of_slugChars (l : List Char)
    (h : ∀ c ∈ l, isLowerAlnum c = true ∨ c = '-') : toLowerCaseChars l = l := by
  induction l with
  | nil => rfl
  | cons a l ih =>
    unfold toLowerCaseChars at ih ⊢
    rw [List.flatMap_cons, toLowerCaseChar_of_slugChar a (h a (List.mem_cons_self _ _)),
      ih (fun c hc => h c (List.mem_cons_of_mem _ hc))]
    rfl

theorem replaceAmpersands_of_slugChars (l : List Char)
    (h : ∀ c ∈ l, isLowerAlnum c = true ∨ c = '-') : replaceAmpersands l = l := by
  induction l with
  | nil => rfl
  | cons a l ih =>
    have ha : a ≠ '&' := by
      intro h0
      rcases h a (List.mem_cons_self _ _) with h1 | h1
      · rw [h0] at h1
        exact absurd h1 (by decide)
      · rw [h0] at h1
        exact absurd h1 (by decide)
    unfold replaceAmpersands at ih ⊢
    rw [List.flatMap_cons, ih (fun c hc => h c (List.mem_cons_of_mem _ hc))]
    simp [ha]

theorem replaceNonAlnumRunsFrom_of_slugChars (l : List Char) :
    ∀ inRun : Bool, (∀ c ∈ l, isLowerAlnum c = true ∨ c = '-') →
      List.Chain' (fun a b => ¬ (a = '-' ∧ b = '-')) l →
      (inRun = true → l.head? ≠ some '-') → replaceNonAlnumRunsFrom inRun l = l := by
  induction l with
  | nil => intro inRun _ _ _; rfl
  | cons a l ih =>
    intro inRun hmem hchain hhead
    have hl : ∀ c ∈ l, isLowerAlnum c = true ∨ c = '-' :=
      fun c hc => hmem c (List.mem_cons_of_mem _ hc)
    rw [List.chain'_cons'] at hchain
    cases ha : isLowerAlnum a
    · have hdash : a = '-' := by
        rcases hmem a (List.mem_cons_self _ _) with h | h
        · rw [ha] at h
          exact Bool.noConfusion h
        · exact h
      have hin : inRun = false := by
        cases inRun
        · rfl
        · exact absurd (by simp [hdash]) (hhead rfl)
      rw [hin, replaceNonAlnumRunsFrom_start a l ha,
        ih true hl hchain.2 (fun _ hh => hchain.1 '-' (by simp [hh]) ⟨hdash, rfl⟩), hdash]
    · rw [replaceNonAlnumRunsFrom_alnum inRun a l ha,
        ih false hl hchain.2 (fun hh => Bool.noConfusion hh)]

theorem removeEdgeDashes_of_slugChars (l : List Char) (hhead : l.head? ≠ some '-')
    (hlast : l.getLast? ≠ some '-') : removeEdgeDashes l = l := by
  rw [removeEdgeDashes_eq]
  have h1 : l.dropWhile (fun c => c == '-') = l := by
    cases l with
    | nil => rfl
    | cons a l =>
      have ha : a ≠ '-' := by simpa using hhead
      simp [List.dropWhile_cons, ha]
  rw [h1, List.rdropWhile_eq_self_iff]
  intro hl
  rw [List.getLast?_eq_getLast _ hl] at hlast
  simpa using hlast

theorem slugChars_of_slugChars (l : List Char)
    (hmem : ∀ c ∈ l, isLowerAlnum c = true ∨ c = '-') (hhead : l.head? ≠ some '-')
    (hlast : l.getLast? ≠ some '-')
    (hchain : List.Chain' (fun a b => ¬ (a = '-' ∧ b = '-')) l) : slugChars l = l := by
  unfold slugChars replaceNonAlnumRuns
  rw [toLowerCaseChars_of_slugChars l hmem, replaceAmpersands_of_slugChars l hmem,
    replaceNonAlnumRunsFrom_of_slugChars l false hmem hchain (fun hh => Bool.noConfusion hh),
    removeEdgeDashes_of_slugChars l hhead hlast]

/-! ## Anchor ids: shape and idempotence -/

/-- C14. Slug shape: for every title the slug consists of characters of
`a`-`z`, `0`-`9` and `-` only, neither begins nor ends with `-`, and has no
two `-` next to each other. -/
theorem slug_shape (title : String) :
    (∀ c ∈ (slug title).data, isLowerAlnum c = true ∨ c = '-') ∧
    (slug title).data.head? ≠ some '-' ∧
    (slug title).data.getLast? ≠ some '-' ∧
    List.Chain' (fun a b => ¬ (a = '-' ∧ b = '-')) (slug title).data :=
  slugChars_shape title.data

/-- C20. Slug idempotence: the slug of a slug is that slug. -/
theorem slug_idempotent (s : String) : slug (slug s) = slug s := by
  obtain ⟨h1, h2, h3, h4⟩ := slugChars_shape s.data
  show String.mk (slugChars (slugChars s.data)) = String.mk (slugChars s.data)
  rw [slugChars_of_slugChars _ h1 h2 h3 h4]

/-! ## Lemmas on decimal digits -/

theorem toDigitsCore_eq (n : Nat) :
    ∀ (fuel : Nat) (ds : List Char), n < fuel →
      Nat.toDigitsCore 10 fuel n ds = Nat.toDigits 10 n ++ ds := by
  induction n using Nat.strong_induction_on with
  | _ n ih =>
    intro fuel ds hlt
    cases fuel with
    | zero => exact absurd hlt (Nat.not_lt_zero _)
    | succ f =>
      unfold Nat.toDigits
      simp only [Nat.toDigitsCore]
      by_cases h0 : n / 10 = 0
      · simp [h0]
      · have hlt2 : n / 10 < n := Nat.div_lt_self (by omega) (by decide)
        simp only [h0, if_false]
        rw [ih (n / 10) hlt2 f _ (by omega), ih (n / 10) hlt2 n _ hlt2]
        simp

theorem toDigits_mul_ten (a : Nat) (ha : 0 < a) :
    Nat.toDigits 10 (a * 10) = Nat.toDigits 10 a ++ ['0'] := by
  have h1 : a * 10 / 10 = a := Nat.mul_div_cancel a (by decide)
  have h2 : a * 10 % 10 = 0 := Nat.mul_mod_left a 10
  have h3 : a ≠ 0 := by omega
  show Nat.toDigitsCore 10 (a * 10 + 1) (a * 10) [] = _
  simp only [Nat.toDigitsCore, h1, h2, h3, if_false]
  rw [toDigitsCore_eq a (a * 10) _ (by omega)]
  rfl

theorem toDigits_mul_hundred (a : Nat) (ha : 0 < a) :
    Nat.toDigits 10 (a * 100) = Nat.toDigits 10 a ++ ['0', '0'] := by
  have h : a * 100 = a * 10 * 10 := by omega
  rw [h, toDigits_mul_ten (a * 10) (by omega), toDigits_mul_ten a ha]
  simp

theorem toDigits_ne_nil (a : Nat) : Nat.toDigits 10 a ≠ [] := by
  unfold Nat.toDigits
  simp only [Nat.toDigitsCore]
  by_cases h0 : a / 10 = 0
  · simp [h0]
  · simp only [h0, if_false]
    rw [toDigitsCore_eq (a / 10) a _ (Nat.div_lt_self (by omega) (by decide))]
    simp

theorem toFixed2_natAbs (numberToString : Nat → String) (x : Int)
    (hx : x.natAbs < 10 ^ 21) :
    toFixed2 numberToString x
      = (if x < 0 then "-" else "") ++ String.mk (Nat.toDigits 10 x.natAbs) ++ ".00" := by
  unfold toFixed2
  have h1 : ¬ (10 ^ 21 ≤ x.natAbs) := by omega
  have hdot : ∀ a b : String, a ++ b ++ "." ++ String.mk ['0', '0'] = a ++ b ++ ".00" := by
    intro a b
    rw [String.append_assoc (a ++ b)]
    rfl
  simp only [h1, if_false]
  by_cases h0 : x.natAbs = 0
  · simp only [h0, Nat.zero_mul, if_true]
    exact hdot _ _
  · have hpos : 0 < x.natAbs := by omega
    have hm : x.natAbs * 100 ≠ 0 := by omega
    have hlen : 0 < (Nat.toDigits 10 x.natAbs).length :=
      List.length_pos.2 (toDigits_ne_nil _)
    simp only [hm, if_false, toDigits_mul_hundred _ hpos]
    have hlen3 : (Nat.toDigits 10 x.natAbs ++ ['0', '0']).length
        = (Nat.toDigits 10 x.natAbs).length + 2 := by
      rw [List.length_append]
      rfl
    have hlen2 : ¬ ((Nat.toDigits 10 x.natAbs ++ ['0', '0']).length ≤ 2) := by
      rw [hlen3]
      omega
    simp only [hlen2, if_false]
    have hk : (Nat.toDigits 10 x.natAbs ++ ['0', '0']).length - 2
        = (Nat.toDigits 10 x.natAbs).length := by
      rw [hlen3]
      omega
    rw [hk, List.take_left, List.drop_left]
    exact hdot _ _

theorem toString_int (x : Int) :
    toString x = (if x < 0 then "-" else "") ++ String.mk (Nat.toDigits 10 x.natAbs) := by
  cases x with
  | ofNat m =>
    have h : ¬ (Int.ofNat m < 0) := by simp
    simp only [h, if_false]
    show Nat.repr m = "" ++ String.mk (Nat.toDigits 10 m)
    rw [String.empty_append]
    rfl
  | negSucc m =>
    have h : Int.negSucc m < 0 := Int.negSucc_lt_zero m
    simp only [h, if_true]
    rfl

theorem trim_eq_empty_iff (s : String) :
    trim s = "" ↔ s.data.all isTrimmedChar = true := by
  unfold trim
  have h : (String.mk ((s.data.dropWhile isTrimmedChar).rdropWhile isTrimmedChar) = "")
      ↔ (s.data.dropWhile isTrimmedChar).rdropWhile isTrimmedChar = [] := by
    constructor
    · intro h
      exact congrArg String.data h
    · intro h
      rw [h]
  rw [h, List.rdropWhile_eq_nil_iff, List.all_eq_true]
  constructor
  · intro hall
    have hnil : s.data.dropWhile isTrimmedChar = [] := by
      have hd := List.head?_dropWhile_not isTrimmedChar s.data
      cases hl : s.data.dropWhile isTrimmedChar with
      | nil => rfl
      | cons a l =>
        rw [hl] at hd hall
        simp only [List.head?_cons] at hd
        have := hall a (List.mem_cons_self _ _)
        rw [hd] at this
        exact Bool.noConfusion this
    exact List.dropWhile_eq_nil_iff.1 hnil
  · intro hall x hx
    exact hall x ((List.dropWhile_suffix _).subset hx)

/-! ## Item cards: price and image -/

/-- Counterexample to C13 as stated: for the integer price `10^21` the result
of `fmtPrice` is `$` followed by what `Number::toString` gives for it, which
is `1e+21`, and not `$1000000000000000000000.00`. -/
theorem fmtPrice_of_ten_pow_21 :
    (∀ numberToString : Nat → String,
      fmtPrice numberToString (some (10 ^ 21)) = "$" ++ numberToString (10 ^ 21)) ∧
    fmtPrice (fun _ => "1e+21") (some (10 ^ 21)) = "$1e+21" ∧
    "$1e+21" ≠ "$" ++ toString ((10 : Int) ^ 21) ++ ".00" := by
  refine ⟨fun _ => rfl, rfl, by decide⟩

/-- C13, amended. Price formatting: for every integer price `n` with
`-10^21 < n < 10^21`, `fmtPrice` gives `$`, the decimal representation of `n`
and `.00`; for a missing price it gives the empty string. -/
theorem fmtPrice_integer (numberToString : Nat → String) (n : Int)
    (hlo : -10 ^ 21 < n) (hhi : n < 10 ^ 21) :
    fmtPrice numberToString (some n) = "$" ++ toString n ++ ".00" ∧
    fmtPrice numberToString none = "" := by
  refine ⟨?_, rfl⟩
  show "$" ++ toFixed2 numberToString n = _
  rw [toFixed2_natAbs numberToString n (by omega), toString_int, String.append_assoc "$"]

/-- Witness of the amended C13: price `4` gives `$4.00` and price `0` gives
`$0.00`. -/
theorem fmtPrice_integer_witness :
    fmtPrice (fun _ => "") (some 4) = "$4.00" ∧
    fmtPrice (fun _ => "") (some 0) = "$0.00" ∧
    fmtPrice (fun _ => "") none = "" :=
  ⟨(fmtPrice_integer (fun _ => "") 4 (by decide) (by decide)).1,
   (fmtPrice_integer (fun _ => "") 0 (by decide) (by decide)).1,
   (fmtPrice_integer (fun _ => "") 4 (by decide) (by decide)).2⟩

/-- Counterexample to C15 as stated: an item whose `img` is the fallback URL
itself has that URL as its source although its `img` is neither absent nor
empty nor whitespace. -/
theorem cardSrc_of_fallback_url :
    cardSrc (itemWithImg (some fallbackImage)) = fallbackImage ∧
    ¬ imgBlank (itemWithImg (some fallbackImage)) := by
  refine ⟨by decide, ?_⟩
  rintro (h | ⟨img, h1, h2⟩)
  · exact Option.noConfusion h
  · have h3 : img = fallbackImage := (Option.some.inj h1).symm
    rw [h3] at h2
    exact absurd h2 (by decide)

/-- C15, amended. Image fallback: the source of a card is the fallback URL
when the item's `img` is absent, empty or whitespace only; otherwise it is
the item's `img` as it is (an `img` with blanks around it is not trimmed); so
the source is the fallback URL exactly when `img` is absent, empty,
whitespace only, or that URL itself. -/
theorem cardSrc_fallback (item : Item) :
    (imgBlank item → cardSrc item = fallbackImage) ∧
    (¬ imgBlank item → ∃ img, item.img = some img ∧ cardSrc item = img) ∧
    (cardSrc item = fallbackImage ↔ imgBlank item ∨ item.img = some fallbackImage) ∧
    cardSrc (itemWithImg (some " a.png ")) = " a.png " ∧
    cardSrc (itemWithImg (some " \t\n")) = fallbackImage := by
  have hblank : imgBlank item → cardSrc item = fallbackImage := by
    rintro (h | ⟨img, h1, h2⟩)
    · simp [cardSrc, h]
    · have h3 : trim img = "" := (trim_eq_empty_iff img).2 h2
      simp [cardSrc, h1, h3]
  have hnot : ¬ imgBlank item → ∃ img, item.img = some img ∧ cardSrc item = img := by
    intro hnb
    cases himg : item.img with
    | none => exact absurd (Or.inl himg) hnb
    | some img =>
      refine ⟨img, rfl, ?_⟩
      have h2 : ¬ (img.data.all isTrimmedChar = true) :=
        fun h => hnb (Or.inr ⟨img, himg, h⟩)
      have h3 : trim img ≠ "" := fun h => h2 ((trim_eq_empty_iff img).1 h)
      have h4 : img ≠ "" := by
        intro h
        rw [h] at h2
        exact h2 rfl
      simp [cardSrc, himg, h3, h4]
  refine ⟨hblank, hnot, ⟨fun h => ?_, ?_⟩, by decide, by decide⟩
  · by_cases hb : imgBlank item
    · exact Or.inl hb
    · obtain ⟨img, h1, h2⟩ := hnot hb
      rw [h2] at h
      rw [h] at h1
      exact Or.inr h1
  · rintro (h | h)
    · exact hblank h
    · by_cases hb : imgBlank item
      · exact hblank hb
      · obtain ⟨img, h1, h2⟩ := hnot hb
        rw [h] at h1
        rw [h2, ← Option.some.inj h1]

/-! ## The carousel: after a swipe whose callback is still registered -/

/-- C1, evaluated at the failing input. After a forward swipe and a `measure`
the three-item carousel is not animating, not dragging and at offset `0`, with
step width 216 and the callback of the swipe still registered; `next`,
`transitionend`, `prev`, `transitionend` then end with the children
`[2, 3, 1]` instead of `[1, 2, 3]`, and so do `prev`, `transitionend`, `next`,
`transitionend`. -/
theorem round_trip_after_swipe :
    staleSwipe.isAnimating = false ∧ staleSwipe.dragging = false ∧
    staleSwipe.offset = 0 ∧ staleSwipe.step = 216 ∧
    staleSwipe.children = [1, 2, 3] ∧ staleSwipe.listeners = [Listener.onUpOnEnd] ∧
    (transitionend (goPrev (transitionend (goNext staleSwipe)))).children = [2, 3, 1] ∧
    (transitionend (goPrev (transitionend (goNext staleSwipe)))).offset = 0 ∧
    (transitionend (goNext (transitionend (goPrev staleSwipe)))).children = [2, 3, 1] ∧
    (transitionend (goNext (transitionend (goPrev staleSwipe)))).offset = 0 := by
  decide

/-- C3, evaluated at the failing input. From the same state (not animating,
not dragging, offset `0`, step width 216, children `[1, 2, 3]`), a drag with
`dx = -31` followed by `transitionend` gives `[3, 1, 2]`, where a completed
`next` of `[1, 2, 3]` is `[2, 3, 1]`; a drag with `dx = -29` followed by the
pending `transitionend` gives `[2, 3, 1]` instead of the original order; and a
drag with `dx = 30` followed by the pending `transitionend` gives `[1, 2, 3]`,
where a completed `prev` of `[1, 2, 3]` is `[3, 1, 2]`. -/
theorem swipe_threshold_after_swipe :
    staleSwipe.isAnimating = false ∧ staleSwipe.dragging = false ∧
    staleSwipe.offset = 0 ∧ staleSwipe.step = 216 ∧ staleSwipe.children = [1, 2, 3] ∧
    (transitionend (drag 100 69 staleSwipe)).children = [3, 1, 2] ∧
    appendFirstChild staleSwipe.children = [2, 3, 1] ∧
    (drag 100 71 staleSwipe).listeners = [Listener.onUpOnEnd] ∧
    (transitionend (drag 100 71 staleSwipe)).children = [2, 3, 1] ∧
    (drag 100 130 staleSwipe).listeners = [Listener.onUpOnEnd] ∧
    (transitionend (drag 100 130 staleSwipe)).children = [1, 2, 3] ∧
    insertLastBeforeFirst staleSwipe.children = [3, 1, 2] := by
  decide

/-- C11, evaluated at the failing input. From the same state (not animating,
not dragging, offset `0`, step width 216, children `[1, 2, 3]`), `next` sets
`isAnimating` and the offset `-216` and keeps the order, but the
`transitionend` that follows runs the callback of the swipe as well and gives
`[3, 1, 2]` instead of `[2, 3, 1]`. -/
theorem next_effect_after_swipe :
    staleSwipe.isAnimating = false ∧ staleSwipe.dragging = false ∧
    staleSwipe.offset = 0 ∧ staleSwipe.step = 216 ∧ staleSwipe.children = [1, 2, 3] ∧
    (goNext staleSwipe).isAnimating = true ∧ (goNext staleSwipe).offset = -216 ∧
    (goNext staleSwipe).children = [1, 2, 3] ∧
    (goNext staleSwipe).listeners = [Listener.onUpOnEnd, Listener.goNextOnEnd] ∧
    (transitionend (goNext staleSwipe)).children = [3, 1, 2] ∧
    (transitionend (goNext staleSwipe)).offset = 0 ∧
    (transitionend (goNext staleSwipe)).isAnimating = false := by
  decide

/-- C12, evaluated at the failing input. From the same state (not animating,
not dragging, offset `0`, step width 216, children `[1, 2, 3]`), `prev` at
once gives `[3, 1, 2]` with `isAnimating` true and offset `0`, but the
`transitionend` that follows runs the callback of the swipe as well and
changes the order further, to `[1, 2, 3]`. -/
theorem prev_effect_after_swipe :
    staleSwipe.isAnimating = false ∧ staleSwipe.dragging = false ∧
    staleSwipe.offset = 0 ∧ staleSwipe.step = 216 ∧ staleSwipe.children = [1, 2, 3] ∧
    (goPrev staleSwipe).children = [3, 1, 2] ∧
    (goPrev staleSwipe).isAnimating = true ∧ (goPrev staleSwipe).offset = 0 ∧
    (goPrev staleSwipe).listeners = [Listener.onUpOnEnd, Listener.goPrevOnEnd] ∧
    (transitionend (goPrev staleSwipe)).isAnimating = false ∧
    (transitionend (goPrev staleSwipe)).children = [1, 2, 3] ∧
    (transitionend (goPrev staleSwipe)).children ≠ (goPrev staleSwipe).children := by
  decide

/-- C19, evaluated at the failing input. From the same state (not animating,
not dragging, offset `0`, step width 216, three distinct children
`[1, 2, 3]`), three completed `next` steps give `[2, 3, 1]` and three
completed `prev` steps give `[2, 3, 1]`, instead of the original order. -/
theorem full_cycle_after_swipe :
    staleSwipe.isAnimating = false ∧ staleSwipe.dragging = false ∧
    staleSwipe.offset = 0 ∧ staleSwipe.step = 216 ∧ staleSwipe.children = [1, 2, 3] ∧
    staleSwipe.children.length = 3 ∧
    (completedNextSteps 3 staleSwipe).children = [2, 3, 1] ∧
    (completedNextSteps 3 staleSwipe).offset = 0 ∧
    (completedNextSteps 3 staleSwipe).isAnimating = false ∧
    (completedPrevSteps 3 staleSwipe).children = [2, 3, 1] := by
  decide

end RocketBurgers
